import Mathlib

/-!
# HID keyboard emulation: report session and key mapping

A shallow embedding of `HIDKeyboard.c` / `HIDKeyboard.h`.

* Bytes (`uint8_t`, `char`) are natural numbers; a store into a `uint8_t`
  field is written with an explicit `% 256` where the stored value is not
  already a byte by construction.
* A C string is the list of bytes found at the pointer.  Reading at an index
  past the end of the list yields the terminator 0, and a string ends at its
  first 0 byte.
* The two external collaborators (`USBD_HID_SendReport`, `HAL_Delay`) are
  recorded as events appended to a log, in call order.
* `malloc` in `KeyboardInit` is taken to succeed.
-/

namespace HIDKeyboard

/-! ## Constants of `HIDKeyboard.h` -/

def MODIFIER_LCTRL : Nat := 1
def MODIFIER_LSHIFT : Nat := 1 <<< 1
def MODIFIER_LALT : Nat := 1 <<< 2
def MODIFIER_OPTION : Nat := 1 <<< 3
def MODIFIER_RCTRL : Nat := 1 <<< 4
def MODIFIER_RSHIFT : Nat := 1 <<< 5
def MODIFIER_RALT : Nat := 1 <<< 6

def KEY_ENTER : Nat := 0x28
def KEY_ESCAPE : Nat := 0x29
def KEY_DELETE : Nat := 0x2A
def KEY_TAB : Nat := 0x2B
def KEY_SPACE : Nat := 0x2C

def KEY_INTERVAL : Nat := 15

/-! ## Data model -/

/-- The eight-byte keyboard report struct of `HIDKeyboard.h`. -/
structure keyboardReport where
  MODIFIER : Nat
  RESERVED : Nat
  KEYCODE1 : Nat
  KEYCODE2 : Nat
  KEYCODE3 : Nat
  KEYCODE4 : Nat
  KEYCODE5 : Nat
  KEYCODE6 : Nat
  deriving DecidableEq, Repr

/-- The value of `sizeof(keyboardReport)`: eight one-byte fields. -/
def sizeofKeyboardReport : Nat := 8

/-- The report seen as `uint8_t*`: its bytes in declaration order. -/
def keyboardReport.bytes (r : keyboardReport) : List Nat :=
  [r.MODIFIER, r.RESERVED, r.KEYCODE1, r.KEYCODE2,
   r.KEYCODE3, r.KEYCODE4, r.KEYCODE5, r.KEYCODE6]

/-- The effect of `memset(report_struct, 0, n)`: the first `n` bytes of the
struct become 0, the others keep their value. -/
def memsetZero (r : keyboardReport) (n : Nat) : keyboardReport :=
  { MODIFIER := if 0 < n then 0 else r.MODIFIER
    RESERVED := if 1 < n then 0 else r.RESERVED
    KEYCODE1 := if 2 < n then 0 else r.KEYCODE1
    KEYCODE2 := if 3 < n then 0 else r.KEYCODE2
    KEYCODE3 := if 4 < n then 0 else r.KEYCODE3
    KEYCODE4 := if 5 < n then 0 else r.KEYCODE4
    KEYCODE5 := if 6 < n then 0 else r.KEYCODE5
    KEYCODE6 := if 7 < n then 0 else r.KEYCODE6 }

/-- The report whose eight bytes are all 0. -/
def zeroReport : keyboardReport :=
  { MODIFIER := 0, RESERVED := 0, KEYCODE1 := 0, KEYCODE2 := 0,
    KEYCODE3 := 0, KEYCODE4 := 0, KEYCODE5 := 0, KEYCODE6 := 0 }

/-- A call to one of the two external collaborators. -/
inductive Event where
  /-- The call `USBD_HID_SendReport(&hUsbDeviceFS, buf, len)`, recorded with
  the `len` bytes found at `buf` at the time of the call. -/
  | send (bytes : List Nat)
  /-- The call `HAL_Delay(ms)`. -/
  | wait (ms : Nat)
  deriving DecidableEq, Repr

/-- The globals of `HIDKeyboard.c` together with the log of collaborator
calls made so far.  `report_struct = none` is the `NULL` pointer. -/
structure World where
  report_struct : Option keyboardReport
  report_size : Nat
  log : List Event
  deriving DecidableEq, Repr

/-- The state at program start: `report_struct` is `NULL`, `report_size` is a
zero-initialised global, nothing has been sent. -/
def World.start : World :=
  { report_struct := none, report_size := 0, log := [] }

/-! ## C strings -/

/-- The byte `str[i]`; indices past the end of the list read the terminator. -/
def charAt (str : List Nat) (i : Nat) : Nat := str.getD i 0

/-- The contents of a C string: the bytes before the first 0. -/
def cstr (str : List Nat) : List Nat := str.takeWhile (fun c => c != 0)

/-- The test `strcmp(a, b) == 0`: both strings have the same contents. -/
def strcmpEq (a b : List Nat) : Bool := cstr a == cstr b

/-- The string literal "/esc". -/
def lit_esc : List Nat := [0x2F, 0x65, 0x73, 0x63]
/-- The string literal "/del". -/
def lit_del : List Nat := [0x2F, 0x64, 0x65, 0x6C]
/-- The string literal "/tab". -/
def lit_tab : List Nat := [0x2F, 0x74, 0x61, 0x62]
/-- The string literal "/space". -/
def lit_space : List Nat := [0x2F, 0x73, 0x70, 0x61, 0x63, 0x65]
/-- The string literal "/enter". -/
def lit_enter : List Nat := [0x2F, 0x65, 0x6E, 0x74, 0x65, 0x72]

/-! ## Static helpers

The static helpers dereference `report_struct` without a check; every caller
has tested it against `NULL` first, so they take the pointee, the global
`report_size` and the log as arguments. -/

/-- The function `PressKeys`: send the buffer, wait, clear it, send it again,
wait.  Returns the buffer afterwards and the extended log. -/
def PressKeys (r : keyboardReport) (size : Nat) (log : List Event) :
    keyboardReport × List Event :=
  /- Press keys -/
  let log1 := log ++ [Event.send (r.bytes.take size)]
  let log2 := log1 ++ [Event.wait KEY_INTERVAL]
  /- Release keys -/
  let r1 := memsetZero r size
  let log3 := log2 ++ [Event.send (r1.bytes.take size)]
  let log4 := log3 ++ [Event.wait KEY_INTERVAL]
  (r1, log4)

/-- The table of the second `switch` of `KeyMap` (symbols typed with Shift);
the `default` label gives 0. -/
def shiftedTemp (s : Nat) : Nat :=
  if s = 0x21 then 0x1E        -- '!'
  else if s = 0x40 then 0x1F   -- '@'
  else if s = 0x23 then 0x20   -- '#'
  else if s = 0x24 then 0x21   -- '$'
  else if s = 0x25 then 0x22   -- '%'
  else if s = 0x5E then 0x23   -- '^'
  else if s = 0x26 then 0x24   -- '&'
  else if s = 0x2A then 0x25   -- '*'
  else if s = 0x28 then 0x26   -- '('
  else if s = 0x29 then 0x27   -- ')'
  else if s = 0x5F then 0x2D   -- '_'
  else if s = 0x2B then 0x2E   -- '+'
  else if s = 0x3A then 0x33   -- ':'
  else if s = 0x3C then 0x36   -- '<'
  else if s = 0x3E then 0x37   -- '>'
  else if s = 0x3F then 0x38   -- '?'
  else 0

/-- The function `KeyMap`, acting on the pointee of `report_struct`.  The
character `s` is given by its byte value; bytes from 0x80 up fail every range
and equality test, whether `char` is signed or not, and so reach the last
branch. -/
def KeyMap (s : Nat) (r : keyboardReport) : keyboardReport :=
  /- Capital letters, ASCII 0x41-0x5A -/
  if 0x41 ≤ s ∧ s ≤ 0x5A then
    let r := { r with MODIFIER := MODIFIER_LSHIFT }
    { r with KEYCODE1 := (s - 0x3D) % 256 }
  /- Lower case letters, ASCII 0x61-0x7A -/
  else if 0x61 ≤ s ∧ s ≤ 0x7A then
    { r with KEYCODE1 := (s - 0x5D) % 256 }
  /- Numbers 0-9: ASCII 0x30-0x39 -/
  else if 0x30 ≤ s ∧ s ≤ 0x39 then
    { r with KEYCODE1 := if s = 0x30 then 0x27 else (s - 0x13) % 256 }
  /- Primary symbols that do not require shift to be held -/
  else if s = 0x20 ∨ s = 0x2F ∨ s = 0x2D ∨ s = 0x3D ∨ s = 0x5B ∨ s = 0x5D
      ∨ s = 0x3B ∨ s = 0x2C ∨ s = 0x2E then
    if s = 0x20 then { r with KEYCODE1 := KEY_SPACE }
    else if s = 0x2F then { r with KEYCODE1 := 0x38 }
    else if s = 0x2D then { r with KEYCODE1 := 0x2D }
    else if s = 0x3D then { r with KEYCODE1 := 0x2E }
    else if s = 0x5B then { r with KEYCODE1 := 0x2F }
    else if s = 0x5D then { r with KEYCODE1 := 0x30 }
    else if s = 0x3B then { r with KEYCODE1 := 0x33 }
    else if s = 0x2C then { r with KEYCODE1 := 0x36 }
    else if s = 0x2E then { r with KEYCODE1 := 0x37 }
    else r
  /- Secondary symbols that required Shift + key -/
  else
    let temp := shiftedTemp s
    let r := { r with MODIFIER := MODIFIER_LSHIFT }
    { r with KEYCODE1 := temp }

/-! ## Public functions -/

/-- The function `KeyboardInit`: allocate the report, record its size and
clear it.  The fresh allocation has unspecified contents, which the `memset`
overwrites; the model starts it from the zero report. -/
def KeyboardInit (w : World) : World :=
  let size := sizeofKeyboardReport
  { w with report_size := size, report_struct := some (memsetZero zeroReport size) }

/-- The `while` loop of `TypeString`, on the rest of the string from `str + i`
on: it ends at the terminator.  The counter `i` is an `unsigned int`; texts
are taken to be shorter than 2^32 bytes, so it does not wrap. -/
def TypeString.loop : List Nat → keyboardReport → Nat → List Event →
    keyboardReport × List Event
  | [], r, _, log => (r, log)
  | c :: rest, r, size, log =>
    if c = 0 then (r, log)
    else
      let r1 := KeyMap c r
      let p := PressKeys r1 size log
      TypeString.loop rest p.1 size p.2

/-- The function `TypeString`. -/
def TypeString (str : List Nat) (w : World) : World :=
  match w.report_struct with
  | none => w
  | some r =>
    let r0 := memsetZero r w.report_size
    let p := TypeString.loop str r0 w.report_size w.log
    { w with report_struct := some p.1, log := p.2 }

/-- The function `ModifiersAndKey`; `modifiers` is a `uint8_t` argument.  For
the empty key, `key[1]` lies past the terminator; like every index past the
end it reads as 0 here. -/
def ModifiersAndKey (modifiers : Nat) (key : List Nat) (w : World) : World :=
  /- Check key -/
  if charAt key 1 ≠ 0 ∧ charAt key 0 ≠ 0x2F then w
  else
    /- Check if report struct initialized -/
    match w.report_struct with
    | none => w
    | some r =>
      /- Clear report struct -/
      let r := memsetZero r w.report_size
      let r := { r with MODIFIER := modifiers % 256 }
      /- Check for operation keys -/
      let r :=
        if charAt key 0 = 0x2F ∧ charAt key 1 ≠ 0 then
          if strcmpEq key lit_esc then { r with KEYCODE1 := KEY_ESCAPE }
          else if strcmpEq key lit_del then { r with KEYCODE1 := KEY_DELETE }
          else if strcmpEq key lit_tab then { r with KEYCODE1 := KEY_TAB }
          else r
        else
          /- If not operation key, use normal key map -/
          KeyMap (charAt key 0) r
      let p := PressKeys r w.report_size w.log
      { w with report_struct := some p.1, log := p.2 }

/-- The function `SingleKeypress`. -/
def SingleKeypress (key : List Nat) (w : World) : World :=
  /- Check if report struct initialized -/
  match w.report_struct with
  | none => w
  | some r =>
    /- Handle operation keys -/
    let r :=
      if charAt key 0 = 0x2F ∧ charAt key 1 ≠ 0 then
        if strcmpEq key lit_esc then { r with KEYCODE1 := KEY_ESCAPE }
        else if strcmpEq key lit_del then { r with KEYCODE1 := KEY_DELETE }
        else if strcmpEq key lit_tab then { r with KEYCODE1 := KEY_TAB }
        else if strcmpEq key lit_space then { r with KEYCODE1 := KEY_SPACE }
        else if strcmpEq key lit_enter then { r with KEYCODE1 := KEY_ENTER }
        else r
      else
        /- If not operation key, use normal key map -/
        KeyMap (charAt key 0) r
    let p := PressKeys r w.report_size w.log
    { w with report_struct := some p.1, log := p.2 }

/-- The function `KeyboardDeinit`. -/
def KeyboardDeinit (w : World) : World :=
  match w.report_struct with
  | some _ => { w with report_struct := none }
  | none => w

/-! ## Sessions -/

/-- A call of one public function with its arguments. -/
inductive Op where
  | init
  | typeString (str : List Nat)
  | modifiersAndKey (modifiers : Nat) (key : List Nat)
  | singleKeypress (key : List Nat)
  | deinit
  deriving DecidableEq, Repr

/-- Run one public call. -/
def Op.run : Op → World → World
  | .init, w => KeyboardInit w
  | .typeString str, w => TypeString str w
  | .modifiersAndKey m key, w => ModifiersAndKey m key w
  | .singleKeypress key, w => SingleKeypress key w
  | .deinit, w => KeyboardDeinit w

/-- Run a sequence of public calls, first to last. -/
def runOps : List Op → World → World
  | [], w => w
  | op :: ops, w => runOps ops (op.run w)

/-- The session is Ready: `KeyboardInit` has set the buffer and its size and
no `KeyboardDeinit` has freed it since.  The contents of the buffer are left
open.  Every state with a non-`NULL` buffer that the public functions reach
from program start is Ready (`runOps_ready`). -/
def Ready (w : World) : Prop :=
  w.report_struct.isSome = true ∧ w.report_size = sizeofKeyboardReport

instance (w : World) : Decidable (Ready w) := by
  unfold Ready; infer_instance

/-- The session is Uninitialized: `report_struct` is `NULL`. -/
def Uninitialized (w : World) : Prop := w.report_struct = none

instance (w : World) : Decidable (Uninitialized w) := by
  unfold Uninitialized; infer_instance

/-- The events appended to the log between two states of one session. -/
def newEvents (before after : World) : List Event :=
  after.log.drop before.log.length

/-- Whether an event is a transmission. -/
def Event.isSend : Event → Bool
  | .send _ => true
  | .wait _ => false

/-- The number of transmissions in an event list. -/
def sends (es : List Event) : Nat := es.countP Event.isSend

/-- The number of delay calls in an event list. -/
def waits (es : List Event) : Nat := es.countP (fun e => !e.isSend)

/-- The eight bytes of an all-zero report. -/
def zeroBytes : List Nat := [0, 0, 0, 0, 0, 0, 0, 0]

/-- The four events of one press/release cycle whose press report is zero
except for the given modifier byte and first keycode. -/
def pressCycle (modifier keycode1 : Nat) : List Event :=
  [Event.send [modifier, 0, keycode1, 0, 0, 0, 0, 0], Event.wait 15,
   Event.send zeroBytes, Event.wait 15]

/-- The press/release protocol as a check on an event trace: the trace splits
into groups send, wait 15, send of eight zero bytes, wait 15. -/
def protocolOk : List Event → Bool
  | [] => true
  | Event.send _ :: Event.wait d1 :: Event.send q :: Event.wait d2 :: rest =>
    d1 == 15 && d2 == 15 && q == zeroBytes && protocolOk rest
  | _ => false

/-- The sixteen shifted symbols with the base key of each on a US keyboard,
as pairs of byte values (symbol, base): ! 1, @ 2, # 3, $ 4, % 5, ^ 6, & 7,
* 8, ( 9, ) 0, _ -, + =, : ;, < comma, > full stop, ? slash. -/
def shiftedPairs : List (Nat × Nat) :=
  [(0x21, 0x31), (0x40, 0x32), (0x23, 0x33), (0x24, 0x34), (0x25, 0x35),
   (0x5E, 0x36), (0x26, 0x37), (0x2A, 0x38), (0x28, 0x39), (0x29, 0x30),
   (0x5F, 0x2D), (0x2B, 0x3D), (0x3A, 0x3B), (0x3C, 0x2C), (0x3E, 0x2E),
   (0x3F, 0x2F)]

/-- The trace made of one press/release group per press report in `ps`. -/
def blocks (ps : List (List Nat)) : List Event :=
  ps.flatMap (fun p => [Event.send p, Event.wait 15, Event.send zeroBytes, Event.wait 15])

/-- The trace `TypeString` is to produce for a text: one press/release cycle
per character, with the modifier and keycode1 `KeyMap` gives on a zeroed
report. -/
def typedTrace (str : List Nat) : List Event :=
  str.flatMap (fun c =>
    pressCycle (KeyMap c zeroReport).MODIFIER (KeyMap c zeroReport).KEYCODE1)

/-- The states the session is in before any `KeyboardInit` (reached from the
start by calls other than `KeyboardInit`) or right after a `KeyboardDeinit`. -/
def BeforeInitOrAfterDeinit (w : World) : Prop :=
  (∃ ops : List Op, (∀ op ∈ ops, op ≠ Op.init) ∧ w = runOps ops World.start) ∨
  (∃ w0 : World, w = KeyboardDeinit w0)

/-- What every state reached through the public functions satisfies: a
non-`NULL` buffer comes with `report_size = 8`, and the log consists of
press/release groups. -/
def SessionInv (w : World) : Prop :=
  (w.report_struct = none ∨ w.report_size = 8) ∧ ∃ ps, w.log = blocks ps

/-- The modifier and first keycode `KeyMap` gives for a character on a zeroed
report. -/
def keyPair (c : Nat) : Nat × Nat :=
  ((KeyMap c zeroReport).MODIFIER, (KeyMap c zeroReport).KEYCODE1)

/-- The 7-bit characters `KeyMap` maps to a non-zero keycode. -/
def mappedChars : List Nat :=
  (List.range 128).filter (fun c => (KeyMap c zeroReport).KEYCODE1 != 0)

/-- Only the modifier byte and the first keycode of the report may be
non-zero. -/
def IsPress (r : keyboardReport) : Prop :=
  r.RESERVED = 0 ∧ r.KEYCODE2 = 0 ∧ r.KEYCODE3 = 0 ∧ r.KEYCODE4 = 0 ∧
  r.KEYCODE5 = 0 ∧ r.KEYCODE6 = 0

/-- The check on one event that a transmitted report has eight bytes with
reserved and keycode2..keycode6 all 0; a wait passes. -/
def reportOk : Event → Bool
  | Event.send [_, reserved, _, k2, k3, k4, k5, k6] =>
    reserved == 0 && k2 == 0 && k3 == 0 && k4 == 0 && k5 == 0 && k6 == 0
  | Event.send _ => false
  | Event.wait _ => true

/-- Every transmitted report of the trace passes `reportOk`. -/
def reportsOk (es : List Event) : Bool := es.all reportOk

/-- The buffer, when there is one, is all-zero and `report_size` is 8. -/
def Clean (w : World) : Prop :=
  w.report_struct = none ∨ (w.report_struct = some zeroReport ∧ w.report_size = 8)

/-! ## Basic facts about the helpers -/

theorem memsetZero_eight (r : keyboardReport) : memsetZero r 8 = zeroReport := by
  simp [memsetZero, zeroReport]

theorem zeroReport_bytes : zeroReport.bytes = zeroBytes := rfl

theorem KeyMap_shape (s : Nat) (r : keyboardReport) (P : keyboardReport → Prop)
    (h : ∀ m k, P { r with MODIFIER := m, KEYCODE1 := k }) : P (KeyMap s r) := by
  unfold KeyMap
  by_cases h1 : 0x41 ≤ s ∧ s ≤ 0x5A
  · rw [if_pos h1]; exact h _ _
  rw [if_neg h1]
  by_cases h2 : 0x61 ≤ s ∧ s ≤ 0x7A
  · rw [if_pos h2]; exact h _ _
  rw [if_neg h2]
  by_cases h3 : 0x30 ≤ s ∧ s ≤ 0x39
  · rw [if_pos h3]; exact h _ _
  rw [if_neg h3]
  by_cases h4 : s = 0x20 ∨ s = 0x2F ∨ s = 0x2D ∨ s = 0x3D ∨ s = 0x5B ∨ s = 0x5D
      ∨ s = 0x3B ∨ s = 0x2C ∨ s = 0x2E
  · rw [if_pos h4]
    split_ifs <;> exact h _ _
  rw [if_neg h4]; exact h _ _

theorem KeyMap_other_fields (s : Nat) (r : keyboardReport) :
    (KeyMap s r).RESERVED = r.RESERVED ∧ (KeyMap s r).KEYCODE2 = r.KEYCODE2 ∧
    (KeyMap s r).KEYCODE3 = r.KEYCODE3 ∧ (KeyMap s r).KEYCODE4 = r.KEYCODE4 ∧
    (KeyMap s r).KEYCODE5 = r.KEYCODE5 ∧ (KeyMap s r).KEYCODE6 = r.KEYCODE6 :=
  KeyMap_shape s r
    (fun x => x.RESERVED = r.RESERVED ∧ x.KEYCODE2 = r.KEYCODE2 ∧
      x.KEYCODE3 = r.KEYCODE3 ∧ x.KEYCODE4 = r.KEYCODE4 ∧
      x.KEYCODE5 = r.KEYCODE5 ∧ x.KEYCODE6 = r.KEYCODE6)
    (fun _ _ => ⟨rfl, rfl, rfl, rfl, rfl, rfl⟩)

theorem KeyMap_zero_bytes (s : Nat) :
    (KeyMap s zeroReport).bytes =
      [(KeyMap s zeroReport).MODIFIER, 0, (KeyMap s zeroReport).KEYCODE1, 0, 0, 0, 0, 0] := by
  obtain ⟨h1, h2, h3, h4, h5, h6⟩ := KeyMap_other_fields s zeroReport
  rw [keyboardReport.bytes, h1, h2, h3, h4, h5, h6]
  rfl

theorem bytes_take_eight (r : keyboardReport) : r.bytes.take 8 = r.bytes := by
  simp [keyboardReport.bytes]

theorem PressKeys_eight (r : keyboardReport) (log : List Event) :
    PressKeys r 8 log =
      (zeroReport,
        log ++ [Event.send r.bytes, Event.wait 15, Event.send zeroBytes, Event.wait 15]) := by
  simp [PressKeys, memsetZero_eight, bytes_take_eight, zeroReport_bytes, KEY_INTERVAL, zeroBytes]

theorem loop_eight (str : List Nat) (hs : ∀ c ∈ str, c ≠ 0) (log : List Event) :
    TypeString.loop str zeroReport 8 log = (zeroReport, log ++ typedTrace str) := by
  induction str generalizing log with
  | nil => simp [TypeString.loop, typedTrace]
  | cons c rest ih =>
    have hc : c ≠ 0 := hs c (by simp)
    have hrest : ∀ x ∈ rest, x ≠ 0 := fun x hx => hs x (by simp [hx])
    simp only [TypeString.loop, hc, if_false, PressKeys_eight]
    rw [ih hrest, KeyMap_zero_bytes]
    simp [typedTrace, pressCycle, List.append_assoc]

theorem loop_blocks (str : List Nat) (r : keyboardReport) (log : List Event) :
    ∃ ps, (TypeString.loop str r 8 log).2 = log ++ blocks ps := by
  induction str generalizing r log with
  | nil => exact ⟨[], by simp [TypeString.loop, blocks]⟩
  | cons c rest ih =>
    by_cases hc : c = 0
    · exact ⟨[], by simp [TypeString.loop, hc, blocks]⟩
    · simp only [TypeString.loop, hc, if_false, PressKeys_eight]
      obtain ⟨ps, hps⟩ := ih zeroReport
        (log ++ [Event.send (KeyMap c r).bytes, Event.wait 15, Event.send zeroBytes,
          Event.wait 15])
      exact ⟨(KeyMap c r).bytes :: ps, by simp [hps, blocks, List.append_assoc]⟩

theorem typedTrace_sends (str : List Nat) : sends (typedTrace str) = 2 * str.length := by
  induction str with
  | nil => rfl
  | cons c rest ih =>
    have h : typedTrace (c :: rest) =
        pressCycle (KeyMap c zeroReport).MODIFIER (KeyMap c zeroReport).KEYCODE1 ++
          typedTrace rest := by
      simp [typedTrace]
    rw [h]
    unfold sends at ih ⊢
    rw [List.countP_append, ih]
    simp [pressCycle, Event.isSend, List.countP_cons]
    omega

theorem typedTrace_waits (str : List Nat) : waits (typedTrace str) = 2 * str.length := by
  induction str with
  | nil => rfl
  | cons c rest ih =>
    have h : typedTrace (c :: rest) =
        pressCycle (KeyMap c zeroReport).MODIFIER (KeyMap c zeroReport).KEYCODE1 ++
          typedTrace rest := by
      simp [typedTrace]
    rw [h]
    unfold waits at ih ⊢
    rw [List.countP_append, ih]
    simp [pressCycle, Event.isSend, List.countP_cons]
    omega

theorem newEvents_append (w w1 : World) (es : List Event) (h : w1.log = w.log ++ es) :
    newEvents w w1 = es := by
  simp [newEvents, h]

theorem TypeString_ready (str : List Nat) (w : World) (hw : Ready w)
    (hs : ∀ c ∈ str, c ≠ 0) :
    TypeString str w = { w with report_struct := some zeroReport,
                                log := w.log ++ typedTrace str } := by
  obtain ⟨rs, size, log⟩ := w
  obtain ⟨h1, h2⟩ := hw
  simp only [sizeofKeyboardReport] at h1 h2
  subst h2
  cases rs with
  | none => simp at h1
  | some r => simp [TypeString, memsetZero_eight, loop_eight str hs]

/-! ## Key mapping -/

/-- C4: for every uppercase letter `c` in 0x41..0x5A, `KeyMap` on a zeroed
report gives modifier LeftShift (0x02) and keycode1 `c - 0x3D`, which lies in
[0x04, 0x1D]; for a second uppercase letter `d` above `c` the keycode of `d`
is strictly larger. -/
theorem KeyMap_uppercase (c d : Nat) (hc : 0x41 ≤ c ∧ c ≤ 0x5A)
    (hd : 0x41 ≤ d ∧ d ≤ 0x5A) :
    (KeyMap c zeroReport).MODIFIER = MODIFIER_LSHIFT ∧ MODIFIER_LSHIFT = 0x02 ∧
    (KeyMap c zeroReport).KEYCODE1 = c - 0x3D ∧
    0x04 ≤ (KeyMap c zeroReport).KEYCODE1 ∧ (KeyMap c zeroReport).KEYCODE1 ≤ 0x1D ∧
    (c < d → (KeyMap c zeroReport).KEYCODE1 < (KeyMap d zeroReport).KEYCODE1) := by
  have hk : ∀ x, 0x41 ≤ x ∧ x ≤ 0x5A → KeyMap x zeroReport =
      { zeroReport with MODIFIER := MODIFIER_LSHIFT, KEYCODE1 := x - 0x3D } := by
    intro x hx
    have hlt : x - 0x3D < 256 := by omega
    simp [KeyMap, hx, Nat.mod_eq_of_lt hlt]
  rw [hk c hc, hk d hd]
  refine ⟨rfl, rfl, rfl, ?_, ?_, ?_⟩ <;> simp only <;> omega

theorem KeyMap_uppercase_witness :
    (0x41 ≤ 0x41 ∧ 0x41 ≤ 0x5A) ∧ (0x41 ≤ 0x42 ∧ 0x42 ≤ 0x5A) ∧
    ((KeyMap 0x41 zeroReport).MODIFIER = MODIFIER_LSHIFT ∧ MODIFIER_LSHIFT = 0x02 ∧
     (KeyMap 0x41 zeroReport).KEYCODE1 = 0x41 - 0x3D ∧
     0x04 ≤ (KeyMap 0x41 zeroReport).KEYCODE1 ∧
     (KeyMap 0x41 zeroReport).KEYCODE1 ≤ 0x1D ∧
     (0x41 < 0x42 →
       (KeyMap 0x41 zeroReport).KEYCODE1 < (KeyMap 0x42 zeroReport).KEYCODE1)) :=
  ⟨by decide, by decide, KeyMap_uppercase 0x41 0x42 (by decide) (by decide)⟩

/-- C5: for every lowercase letter `c` in 0x61..0x7A, `KeyMap` on a zeroed
report gives modifier 0 and a keycode1 in [0x04, 0x1D] equal to the keycode1
it gives for the uppercase letter `c - 0x20`. -/
theorem KeyMap_lowercase (c : Nat) (hc : 0x61 ≤ c ∧ c ≤ 0x7A) :
    (KeyMap c zeroReport).MODIFIER = 0 ∧
    0x04 ≤ (KeyMap c zeroReport).KEYCODE1 ∧ (KeyMap c zeroReport).KEYCODE1 ≤ 0x1D ∧
    (KeyMap c zeroReport).KEYCODE1 = (KeyMap (c - 0x20) zeroReport).KEYCODE1 := by
  have hlo : KeyMap c zeroReport = { zeroReport with KEYCODE1 := c - 0x5D } := by
    have h1 : ¬ (0x41 ≤ c ∧ c ≤ 0x5A) := by omega
    have hlt : c - 0x5D < 256 := by omega
    simp [KeyMap, h1, hc, Nat.mod_eq_of_lt hlt]
  have hup : KeyMap (c - 0x20) zeroReport =
      { zeroReport with MODIFIER := MODIFIER_LSHIFT, KEYCODE1 := c - 0x20 - 0x3D } := by
    have h1 : 0x41 ≤ c - 0x20 ∧ c - 0x20 ≤ 0x5A := by omega
    have hlt : c - 0x20 - 0x3D < 256 := by omega
    simp [KeyMap, h1, Nat.mod_eq_of_lt hlt]
  rw [hlo, hup]
  refine ⟨rfl, ?_, ?_, ?_⟩ <;> simp only <;> omega

theorem KeyMap_lowercase_witness :
    (0x61 ≤ 0x62 ∧ 0x62 ≤ 0x7A) ∧
    ((KeyMap 0x62 zeroReport).MODIFIER = 0 ∧
     0x04 ≤ (KeyMap 0x62 zeroReport).KEYCODE1 ∧
     (KeyMap 0x62 zeroReport).KEYCODE1 ≤ 0x1D ∧
     (KeyMap 0x62 zeroReport).KEYCODE1 = (KeyMap (0x62 - 0x20) zeroReport).KEYCODE1) :=
  ⟨by decide, KeyMap_lowercase 0x62 (by decide)⟩

/-- C6: `KeyMap` on a zeroed report maps the digit 0 (0x30) to modifier 0 and
keycode 0x27, and every digit `c` in 0x31..0x39 to modifier 0 and keycode
`c - 0x13`; these keycodes increase strictly with the digit and are exactly
the values 0x1E..0x26. -/
theorem KeyMap_digits :
    (KeyMap 0x30 zeroReport).MODIFIER = 0 ∧ (KeyMap 0x30 zeroReport).KEYCODE1 = 0x27 ∧
    (∀ c, 0x31 ≤ c ∧ c ≤ 0x39 →
      (KeyMap c zeroReport).MODIFIER = 0 ∧ (KeyMap c zeroReport).KEYCODE1 = c - 0x13) ∧
    (∀ c d, 0x31 ≤ c ∧ c ≤ 0x39 → 0x31 ≤ d ∧ d ≤ 0x39 → c < d →
      (KeyMap c zeroReport).KEYCODE1 < (KeyMap d zeroReport).KEYCODE1) ∧
    (∀ k, (0x1E ≤ k ∧ k ≤ 0x26) ↔
      ∃ c, (0x31 ≤ c ∧ c ≤ 0x39) ∧ (KeyMap c zeroReport).KEYCODE1 = k) := by
  have hk : ∀ x, 0x31 ≤ x ∧ x ≤ 0x39 →
      KeyMap x zeroReport = { zeroReport with KEYCODE1 := x - 0x13 } := by
    intro x hx
    have h1 : ¬ (0x41 ≤ x ∧ x ≤ 0x5A) := by omega
    have h2 : ¬ (0x61 ≤ x ∧ x ≤ 0x7A) := by omega
    have h3 : 0x30 ≤ x ∧ x ≤ 0x39 := by omega
    have h4 : x ≠ 0x30 := by omega
    have hlt : x - 0x13 < 256 := by omega
    simp [KeyMap, h1, h2, h3, h4, Nat.mod_eq_of_lt hlt]
  refine ⟨by decide, by decide, ?_, ?_, ?_⟩
  · intro c hc
    rw [hk c hc]
    exact ⟨rfl, rfl⟩
  · intro c d hc hd hlt
    rw [hk c hc, hk d hd]
    simp only
    omega
  · intro k
    constructor
    · intro h
      refine ⟨k + 0x13, by omega, ?_⟩
      rw [hk (k + 0x13) (by omega)]
      simp
    · rintro ⟨c, hc, rfl⟩
      rw [hk c hc]
      simp only
      omega

/-- C7: for each of the nine unshifted symbols, `KeyMap` on a zeroed report
gives modifier 0 and the table keycode: space 0x2C, slash 0x38, minus 0x2D,
equals 0x2E, left bracket 0x2F, right bracket 0x30, semicolon 0x33, comma
0x36, full stop 0x37. -/
theorem KeyMap_unshifted_symbols :
    KeyMap 0x20 zeroReport = { zeroReport with MODIFIER := 0, KEYCODE1 := 0x2C } ∧
    KeyMap 0x2F zeroReport = { zeroReport with MODIFIER := 0, KEYCODE1 := 0x38 } ∧
    KeyMap 0x2D zeroReport = { zeroReport with MODIFIER := 0, KEYCODE1 := 0x2D } ∧
    KeyMap 0x3D zeroReport = { zeroReport with MODIFIER := 0, KEYCODE1 := 0x2E } ∧
    KeyMap 0x5B zeroReport = { zeroReport with MODIFIER := 0, KEYCODE1 := 0x2F } ∧
    KeyMap 0x5D zeroReport = { zeroReport with MODIFIER := 0, KEYCODE1 := 0x30 } ∧
    KeyMap 0x3B zeroReport = { zeroReport with MODIFIER := 0, KEYCODE1 := 0x33 } ∧
    KeyMap 0x2C zeroReport = { zeroReport with MODIFIER := 0, KEYCODE1 := 0x36 } ∧
    KeyMap 0x2E zeroReport = { zeroReport with MODIFIER := 0, KEYCODE1 := 0x37 } := by
  decide

/-- C8: for every shifted symbol `s` with its base key `b` (the sixteen pairs
of `shiftedPairs`), `KeyMap` on a zeroed report gives both the same keycode1,
with modifier LeftShift for `s` and modifier 0 for `b`. -/
theorem KeyMap_shifted_pairs (s b : Nat) (h : (s, b) ∈ shiftedPairs) :
    (KeyMap s zeroReport).KEYCODE1 = (KeyMap b zeroReport).KEYCODE1 ∧
    (KeyMap s zeroReport).MODIFIER = MODIFIER_LSHIFT ∧
    (KeyMap b zeroReport).MODIFIER = 0 := by
  have hall : ∀ p ∈ shiftedPairs,
      (KeyMap p.1 zeroReport).KEYCODE1 = (KeyMap p.2 zeroReport).KEYCODE1 ∧
      (KeyMap p.1 zeroReport).MODIFIER = MODIFIER_LSHIFT ∧
      (KeyMap p.2 zeroReport).MODIFIER = 0 := by
    decide
  exact hall (s, b) h

theorem KeyMap_shifted_pairs_witness :
    (0x5F, 0x2D) ∈ shiftedPairs ∧
    ((KeyMap 0x5F zeroReport).KEYCODE1 = (KeyMap 0x2D zeroReport).KEYCODE1 ∧
     (KeyMap 0x5F zeroReport).MODIFIER = MODIFIER_LSHIFT ∧
     (KeyMap 0x2D zeroReport).MODIFIER = 0) :=
  ⟨by decide, KeyMap_shifted_pairs 0x5F 0x2D (by decide)⟩

/-- C9 (the code at a character outside every table): for the backslash
(0x5C) `KeyMap` on a zeroed report gives keycode1 0 but modifier LeftShift
(0x02), and the press report `TypeString` transmits for it is
02 00 00 00 00 00 00 00, not all-zero. -/
theorem KeyMap_unmapped_backslash :
    (KeyMap 0x5C zeroReport).KEYCODE1 = 0 ∧
    (KeyMap 0x5C zeroReport).MODIFIER = 0x02 ∧
    (TypeString [0x5C] (KeyboardInit World.start)).log =
      [Event.send [0x02, 0, 0, 0, 0, 0, 0, 0], Event.wait 15,
       Event.send [0, 0, 0, 0, 0, 0, 0, 0], Event.wait 15] := by
  decide

/-! ## Typing text -/

/-- C1: for a text of non-NUL bytes typed with `TypeString` in a Ready
session, the events appended to the log are exactly, for each character in
order, send(press report with the modifier and keycode1 `KeyMap` gives on a
zeroed report, other bytes 0), wait(15), send(all-zero report), wait(15);
so there are twice as many transmissions, and twice as many waits, as
characters.  The empty text appends nothing, and the text "Ab" appends the
four reports (LeftShift, 0x04), zero, (0, 0x05), zero. -/
theorem TypeString_trace (str : List Nat) (w : World) (hw : Ready w)
    (hs : ∀ c ∈ str, c ≠ 0) :
    (TypeString str w).log = w.log ++ typedTrace str ∧
    newEvents w (TypeString str w) = typedTrace str ∧
    sends (newEvents w (TypeString str w)) = 2 * str.length ∧
    waits (newEvents w (TypeString str w)) = 2 * str.length ∧
    newEvents w (TypeString [] w) = [] ∧
    newEvents w (TypeString [0x41, 0x62] w) =
      [Event.send [0x02, 0, 0x04, 0, 0, 0, 0, 0], Event.wait 15,
       Event.send [0, 0, 0, 0, 0, 0, 0, 0], Event.wait 15,
       Event.send [0, 0, 0x05, 0, 0, 0, 0, 0], Event.wait 15,
       Event.send [0, 0, 0, 0, 0, 0, 0, 0], Event.wait 15] := by
  have h : (TypeString str w).log = w.log ++ typedTrace str := by
    rw [TypeString_ready str w hw hs]
  have hn := newEvents_append w _ _ h
  have h0 : (TypeString [] w).log = w.log ++ typedTrace [] := by
    rw [TypeString_ready [] w hw (by simp)]
  have hab : (TypeString [0x41, 0x62] w).log = w.log ++ typedTrace [0x41, 0x62] := by
    rw [TypeString_ready [0x41, 0x62] w hw (by decide)]
  refine ⟨h, hn, by rw [hn, typedTrace_sends], by rw [hn, typedTrace_waits], ?_, ?_⟩
  · rw [newEvents_append w _ _ h0]; rfl
  · rw [newEvents_append w _ _ hab]; decide

theorem TypeString_trace_witness :
    Ready (KeyboardInit World.start) ∧ (∀ c ∈ [0x48, 0x69], c ≠ 0) ∧
    (TypeString [0x48, 0x69] (KeyboardInit World.start)).log =
      (KeyboardInit World.start).log ++ typedTrace [0x48, 0x69] :=
  ⟨by decide, by decide,
    (TypeString_trace [0x48, 0x69] (KeyboardInit World.start) (by decide) (by decide)).1⟩

/-! ## Operation keys with modifiers -/

theorem ModifiersAndKey_operation (m : Nat) (hm : m < 256) (w : World) (hw : Ready w)
    (key : List Nat) (code : Nat)
    (hk : (key = lit_esc ∧ code = KEY_ESCAPE) ∨ (key = lit_del ∧ code = KEY_DELETE) ∨
          (key = lit_tab ∧ code = KEY_TAB)) :
    ModifiersAndKey m key w =
      { w with report_struct := some zeroReport, log := w.log ++ pressCycle m code } := by
  obtain ⟨rs, size, log⟩ := w
  obtain ⟨h1, h2⟩ := hw
  simp only [sizeofKeyboardReport] at h1 h2
  subst h2
  cases rs with
  | none => simp at h1
  | some r =>
    rcases hk with ⟨rfl, rfl⟩ | ⟨rfl, rfl⟩ | ⟨rfl, rfl⟩ <;>
      simp [ModifiersAndKey, charAt, lit_esc, lit_del, lit_tab, strcmpEq, cstr,
        memsetZero_eight, PressKeys_eight, pressCycle, keyboardReport.bytes, zeroReport,
        Nat.mod_eq_of_lt hm, KEY_ESCAPE, KEY_DELETE, KEY_TAB]

/-- C10: for every modifier byte `m` and each of the keys "/esc", "/del",
"/tab", `ModifiersAndKey m key` in a Ready session appends exactly one
press/release cycle, so exactly two transmissions: the press report with
modifier `m`, reserved 0, keycode1 0x29, 0x2A, 0x2B respectively and
keycode2..6 zero, then the all-zero release report. -/
theorem ModifiersAndKey_operation_keys (m : Nat) (hm : m < 256) (w : World)
    (hw : Ready w) :
    (newEvents w (ModifiersAndKey m lit_esc w) =
        [Event.send [m, 0, 0x29, 0, 0, 0, 0, 0], Event.wait 15,
         Event.send [0, 0, 0, 0, 0, 0, 0, 0], Event.wait 15] ∧
      sends (newEvents w (ModifiersAndKey m lit_esc w)) = 2) ∧
    (newEvents w (ModifiersAndKey m lit_del w) =
        [Event.send [m, 0, 0x2A, 0, 0, 0, 0, 0], Event.wait 15,
         Event.send [0, 0, 0, 0, 0, 0, 0, 0], Event.wait 15] ∧
      sends (newEvents w (ModifiersAndKey m lit_del w)) = 2) ∧
    (newEvents w (ModifiersAndKey m lit_tab w) =
        [Event.send [m, 0, 0x2B, 0, 0, 0, 0, 0], Event.wait 15,
         Event.send [0, 0, 0, 0, 0, 0, 0, 0], Event.wait 15] ∧
      sends (newEvents w (ModifiersAndKey m lit_tab w)) = 2) := by
  have hesc := ModifiersAndKey_operation m hm w hw lit_esc KEY_ESCAPE (Or.inl ⟨rfl, rfl⟩)
  have hdel := ModifiersAndKey_operation m hm w hw lit_del KEY_DELETE
    (Or.inr (Or.inl ⟨rfl, rfl⟩))
  have htab := ModifiersAndKey_operation m hm w hw lit_tab KEY_TAB
    (Or.inr (Or.inr ⟨rfl, rfl⟩))
  have e1 := newEvents_append w (ModifiersAndKey m lit_esc w) (pressCycle m KEY_ESCAPE)
    (by rw [hesc])
  have e2 := newEvents_append w (ModifiersAndKey m lit_del w) (pressCycle m KEY_DELETE)
    (by rw [hdel])
  have e3 := newEvents_append w (ModifiersAndKey m lit_tab w) (pressCycle m KEY_TAB)
    (by rw [htab])
  rw [e1, e2, e3]
  exact ⟨⟨rfl, rfl⟩, ⟨rfl, rfl⟩, ⟨rfl, rfl⟩⟩

theorem ModifiersAndKey_operation_keys_witness :
    (3 < 256 ∧ Ready (KeyboardInit World.start)) ∧
    newEvents (KeyboardInit World.start)
        (ModifiersAndKey 3 lit_esc (KeyboardInit World.start)) =
      [Event.send [3, 0, 0x29, 0, 0, 0, 0, 0], Event.wait 15,
       Event.send [0, 0, 0, 0, 0, 0, 0, 0], Event.wait 15] :=
  ⟨by decide,
    (ModifiersAndKey_operation_keys 3 (by decide) (KeyboardInit World.start)
      (by decide)).1.1⟩

/-! ## Uninitialized sessions -/

theorem newEvents_self (w : World) : newEvents w w = [] := by
  simp [newEvents]

theorem uninitialized_calls (w : World) (hw : Uninitialized w) (str : List Nat)
    (m : Nat) (key : List Nat) :
    TypeString str w = w ∧ ModifiersAndKey m key w = w ∧ SingleKeypress key w = w ∧
    KeyboardDeinit w = w := by
  unfold Uninitialized at hw
  refine ⟨?_, ?_, ?_, ?_⟩
  · simp [TypeString, hw]
  · unfold ModifiersAndKey
    split
    · rfl
    · simp [hw]
  · simp [SingleKeypress, hw]
  · simp [KeyboardDeinit, hw]

theorem KeyboardDeinit_uninitialized (w : World) : Uninitialized (KeyboardDeinit w) := by
  unfold Uninitialized KeyboardDeinit
  cases h : w.report_struct <;> simp [h]

theorem runOps_without_init (ops : List Op) (w : World) (hw : Uninitialized w)
    (hops : ∀ op ∈ ops, op ≠ Op.init) : runOps ops w = w := by
  induction ops with
  | nil => rfl
  | cons op rest ih =>
    have hrest : ∀ o ∈ rest, o ≠ Op.init := fun o ho => hops o (by simp [ho])
    have hop : op ≠ Op.init := hops op (by simp)
    have hstep : op.run w = w := by
      cases op with
      | init => exact absurd rfl hop
      | typeString str => exact (uninitialized_calls w hw str 0 []).1
      | modifiersAndKey m key => exact (uninitialized_calls w hw [] m key).2.1
      | singleKeypress key => exact (uninitialized_calls w hw [] 0 key).2.2.1
      | deinit => exact (uninitialized_calls w hw [] 0 []).2.2.2
    simp only [runOps, hstep]
    exact ih hrest

theorem BeforeInitOrAfterDeinit_uninitialized (w : World)
    (hw : BeforeInitOrAfterDeinit w) : Uninitialized w := by
  rcases hw with ⟨ops, hops, rfl⟩ | ⟨w0, rfl⟩
  · rw [runOps_without_init ops World.start rfl hops]
    rfl
  · exact KeyboardDeinit_uninitialized w0

/-- C3: in the Uninitialized state, that is before any `KeyboardInit` or after
`KeyboardDeinit`, each of `TypeString`, `ModifiersAndKey` and `SingleKeypress`,
for every argument, appends no event (no transmission, no delay call), leaves
the state as it was, and so leaves the session Uninitialized. -/
theorem uninitialized_noop (w : World) (hw : BeforeInitOrAfterDeinit w)
    (str : List Nat) (m : Nat) (key : List Nat) :
    Uninitialized w ∧
    (newEvents w (TypeString str w) = [] ∧ TypeString str w = w ∧
      Uninitialized (TypeString str w)) ∧
    (newEvents w (ModifiersAndKey m key w) = [] ∧ ModifiersAndKey m key w = w ∧
      Uninitialized (ModifiersAndKey m key w)) ∧
    (newEvents w (SingleKeypress key w) = [] ∧ SingleKeypress key w = w ∧
      Uninitialized (SingleKeypress key w)) := by
  have hu := BeforeInitOrAfterDeinit_uninitialized w hw
  obtain ⟨h1, h2, h3, _⟩ := uninitialized_calls w hu str m key
  rw [h1, h2, h3]
  exact ⟨hu, ⟨newEvents_self w, rfl, hu⟩, ⟨newEvents_self w, rfl, hu⟩,
    ⟨newEvents_self w, rfl, hu⟩⟩

theorem uninitialized_noop_witness :
    BeforeInitOrAfterDeinit (KeyboardDeinit (KeyboardInit World.start)) ∧
    (newEvents (KeyboardDeinit (KeyboardInit World.start))
        (TypeString [0x41] (KeyboardDeinit (KeyboardInit World.start))) = [] ∧
      TypeString [0x41] (KeyboardDeinit (KeyboardInit World.start)) =
        KeyboardDeinit (KeyboardInit World.start) ∧
      Uninitialized (TypeString [0x41] (KeyboardDeinit (KeyboardInit World.start)))) :=
  ⟨Or.inr ⟨KeyboardInit World.start, rfl⟩,
    (uninitialized_noop (KeyboardDeinit (KeyboardInit World.start))
      (Or.inr ⟨KeyboardInit World.start, rfl⟩) [0x41] 0x02 lit_esc).2.1⟩

/-! ## The press/release protocol -/

theorem blocks_append (ps qs : List (List Nat)) :
    blocks (ps ++ qs) = blocks ps ++ blocks qs := by
  simp [blocks]

theorem protocolOk_blocks (ps : List (List Nat)) : protocolOk (blocks ps) = true := by
  induction ps with
  | nil => rfl
  | cons p rest ih =>
    have h : blocks (p :: rest) =
        Event.send p :: Event.wait 15 :: Event.send zeroBytes :: Event.wait 15 ::
          blocks rest := by
      simp [blocks]
    rw [h]
    simp [protocolOk, ih]

theorem PressKeys_blocks (r : keyboardReport) (log : List Event) :
    (PressKeys r 8 log).2 = log ++ blocks [r.bytes] := by
  rw [PressKeys_eight]
  simp [blocks]

theorem SessionInv_extend (w w1 : World) (hw : SessionInv w) (qs : List (List Nat))
    (hsize : w1.report_struct = none ∨ w1.report_size = 8)
    (hlog : w1.log = w.log ++ blocks qs) : SessionInv w1 := by
  obtain ⟨_, ps, hps⟩ := hw
  exact ⟨hsize, ps ++ qs, by rw [hlog, hps, blocks_append]⟩

theorem SessionInv_step (op : Op) (w : World) (hw : SessionInv w) :
    SessionInv (op.run w) := by
  have hsz := hw.1
  obtain ⟨rs, size, log⟩ := w
  cases op with
  | init =>
    exact SessionInv_extend _ _ hw [] (Or.inr rfl) (by simp [Op.run, KeyboardInit, blocks])
  | deinit =>
    cases rs with
    | none => exact hw
    | some r =>
      exact SessionInv_extend _ _ hw [] (Or.inl rfl) (by simp [Op.run, KeyboardDeinit, blocks])
  | typeString str =>
    cases rs with
    | none => exact hw
    | some r =>
      have h8 : size = 8 := by simpa using hsz
      subst h8
      obtain ⟨qs, hqs⟩ := loop_blocks str (memsetZero r 8) log
      exact SessionInv_extend _ _ hw qs (Or.inr rfl) (by simpa [Op.run, TypeString] using hqs)
  | modifiersAndKey m key =>
    cases rs with
    | none =>
      have h : ModifiersAndKey m key ⟨none, size, log⟩ = ⟨none, size, log⟩ :=
        (uninitialized_calls ⟨none, size, log⟩ (Eq.refl none) [] m key).2.1
      simpa [Op.run, h] using hw
    | some r =>
      have h8 : size = 8 := by simpa using hsz
      subst h8
      simp only [Op.run, ModifiersAndKey]
      split
      · exact hw
      · exact SessionInv_extend _ _ hw [_] (Or.inr rfl) (PressKeys_blocks _ _)
  | singleKeypress key =>
    cases rs with
    | none => exact hw
    | some r =>
      have h8 : size = 8 := by simpa using hsz
      subst h8
      exact SessionInv_extend _ _ hw [_] (Or.inr rfl) (PressKeys_blocks _ _)

theorem SessionInv_runOps (ops : List Op) (w : World) (hw : SessionInv w) :
    SessionInv (runOps ops w) := by
  induction ops generalizing w with
  | nil => exact hw
  | cons op rest ih => exact ih _ (SessionInv_step op w hw)

theorem SessionInv_start : SessionInv World.start :=
  ⟨Or.inl rfl, [], rfl⟩

theorem runOps_ready (ops : List Op)
    (h : (runOps ops World.start).report_struct ≠ none) :
    Ready (runOps ops World.start) := by
  obtain ⟨hsz, _⟩ := SessionInv_runOps ops World.start SessionInv_start
  rcases hsz with hnone | h8
  · exact absurd hnone h
  · refine ⟨?_, h8⟩
    cases hrs : (runOps ops World.start).report_struct with
    | none => exact absurd hrs h
    | some r => rfl

/-- C2: in the event trace of any sequence of the public operations
(`KeyboardInit`, `TypeString`, `ModifiersAndKey`, `SingleKeypress`,
`KeyboardDeinit`) from program start, transmissions come in consecutive
pairs, the second report of each pair is eight zero bytes, each transmission
is immediately followed by a wait of exactly 15, and there is no other
wait. -/
theorem protocol_always (ops : List Op) :
    protocolOk (runOps ops World.start).log = true := by
  obtain ⟨_, ps, hps⟩ := SessionInv_runOps ops World.start SessionInv_start
  rw [hps]
  exact protocolOk_blocks ps

/-! ## Injectivity of the key map -/

theorem shiftedTemp_high (c : Nat) (hc : 128 ≤ c) : shiftedTemp c = 0 := by
  unfold shiftedTemp
  repeat rw [if_neg (by omega)]

theorem KeyMap_high (c : Nat) (hc : 128 ≤ c) : (KeyMap c zeroReport).KEYCODE1 = 0 := by
  have h1 : ¬ (0x41 ≤ c ∧ c ≤ 0x5A) := by omega
  have h2 : ¬ (0x61 ≤ c ∧ c ≤ 0x7A) := by omega
  have h3 : ¬ (0x30 ≤ c ∧ c ≤ 0x39) := by omega
  have h4 : ¬ (c = 0x20 ∨ c = 0x2F ∨ c = 0x2D ∨ c = 0x3D ∨ c = 0x5B ∨ c = 0x5D
      ∨ c = 0x3B ∨ c = 0x2C ∨ c = 0x2E) := by omega
  unfold KeyMap
  rw [if_neg h1, if_neg h2, if_neg h3, if_neg h4]
  exact shiftedTemp_high c hc

set_option maxRecDepth 100000 in
theorem mappedChars_nodup : (mappedChars.map keyPair).Nodup := by
  decide

theorem mem_mappedChars (c : Nat) (h : (KeyMap c zeroReport).KEYCODE1 ≠ 0) :
    c ∈ mappedChars := by
  have hlt : c < 128 := by
    by_contra hge
    exact h (KeyMap_high c (by omega))
  simp [mappedChars, hlt, h]

/-- C19: `KeyMap` is injective on mapped characters: two distinct characters
that `KeyMap`, on a zeroed report, both map to a non-zero keycode1 get
different (modifier, keycode1) pairs. -/
theorem KeyMap_injective (c d : Nat) (hcd : c ≠ d)
    (hc : (KeyMap c zeroReport).KEYCODE1 ≠ 0) (hd : (KeyMap d zeroReport).KEYCODE1 ≠ 0) :
    ((KeyMap c zeroReport).MODIFIER, (KeyMap c zeroReport).KEYCODE1) ≠
      ((KeyMap d zeroReport).MODIFIER, (KeyMap d zeroReport).KEYCODE1) := by
  intro heq
  exact hcd (List.inj_on_of_nodup_map mappedChars_nodup (mem_mappedChars c hc)
    (mem_mappedChars d hd) heq)

theorem KeyMap_injective_witness :
    (0x41 ≠ 0x61 ∧ (KeyMap 0x41 zeroReport).KEYCODE1 ≠ 0 ∧
      (KeyMap 0x61 zeroReport).KEYCODE1 ≠ 0) ∧
    ((KeyMap 0x41 zeroReport).MODIFIER, (KeyMap 0x41 zeroReport).KEYCODE1) ≠
      ((KeyMap 0x61 zeroReport).MODIFIER, (KeyMap 0x61 zeroReport).KEYCODE1) :=
  ⟨by decide, KeyMap_injective 0x41 0x61 (by decide) (by decide) (by decide)⟩

/-! ## Key arguments -/

theorem charAt_one_of_cstr_length (key : List Nat) (hlen : 2 ≤ (cstr key).length) :
    charAt key 1 ≠ 0 := by
  match key with
  | [] => simp [cstr] at hlen
  | [a] =>
    have h : (cstr [a]).length ≤ 1 := by
      unfold cstr
      rw [List.takeWhile_cons]
      split <;> simp
    omega
  | a :: b :: rest =>
    by_cases hb : b = 0
    · subst hb
      have h : (cstr (a :: 0 :: rest)).length ≤ 1 := by
        unfold cstr
        rw [List.takeWhile_cons]
        split
        · simp [List.takeWhile_cons]
        · simp
      omega
    · simpa [charAt] using hb

/-- C12: for every modifier byte `m` and every key of length at least 2 whose
first character is not the slash, `ModifiersAndKey m key` appends no event (no
transmission, no delay call) and leaves the state, the report buffer
included, as it was. -/
theorem ModifiersAndKey_rejects_literal (m : Nat) (key : List Nat) (w : World)
    (hlen : 2 ≤ (cstr key).length) (hfirst : charAt key 0 ≠ 0x2F) :
    ModifiersAndKey m key w = w ∧
    newEvents w (ModifiersAndKey m key w) = [] ∧
    (ModifiersAndKey m key w).report_struct = w.report_struct := by
  have h1 := charAt_one_of_cstr_length key hlen
  have h : ModifiersAndKey m key w = w := by
    unfold ModifiersAndKey
    rw [if_pos ⟨h1, hfirst⟩]
  rw [h]
  exact ⟨rfl, newEvents_self w, rfl⟩

theorem ModifiersAndKey_rejects_literal_witness :
    (2 ≤ (cstr [0x61, 0x62]).length ∧ charAt [0x61, 0x62] 0 ≠ 0x2F) ∧
    (ModifiersAndKey 0 [0x61, 0x62] (KeyboardInit World.start) = KeyboardInit World.start ∧
     newEvents (KeyboardInit World.start)
       (ModifiersAndKey 0 [0x61, 0x62] (KeyboardInit World.start)) = [] ∧
     (ModifiersAndKey 0 [0x61, 0x62] (KeyboardInit World.start)).report_struct =
       (KeyboardInit World.start).report_struct) :=
  ⟨by decide,
    ModifiersAndKey_rejects_literal 0 [0x61, 0x62] (KeyboardInit World.start)
      (by decide) (by decide)⟩

/-- C11 (the code at an uppercase key): `ModifiersAndKey MODIFIER_LCTRL "A"` in
the Ready session right after `KeyboardInit` transmits the press report
02 00 04 00 00 00 00 00: keycode1 is the one `KeyMap` gives for A, but the
modifier byte is LeftShift alone and the requested LeftCtrl bit is not in
it. -/
theorem ModifiersAndKey_uppercase_modifier :
    newEvents (KeyboardInit World.start)
        (ModifiersAndKey MODIFIER_LCTRL [0x41] (KeyboardInit World.start)) =
      [Event.send [0x02, 0, 0x04, 0, 0, 0, 0, 0], Event.wait 15,
       Event.send [0, 0, 0, 0, 0, 0, 0, 0], Event.wait 15] ∧
    (KeyMap 0x41 zeroReport).KEYCODE1 = 0x04 ∧
    MODIFIER_LCTRL = 0x01 ∧ 0x02 &&& MODIFIER_LCTRL = 0 := by
  decide

/-- C13 (the code at an unrecognized escape): in the Ready session right after
`KeyboardInit`, `ModifiersAndKey 1 "/foo"` transmits the press report
01 00 00 00 00 00 00 00 and a release report, and `SingleKeypress "/foo"`
transmits two all-zero reports: two transmissions each, not none. -/
theorem unrecognized_escape_transmits :
    newEvents (KeyboardInit World.start)
        (ModifiersAndKey 1 [0x2F, 0x66, 0x6F, 0x6F] (KeyboardInit World.start)) =
      [Event.send [0x01, 0, 0, 0, 0, 0, 0, 0], Event.wait 15,
       Event.send [0, 0, 0, 0, 0, 0, 0, 0], Event.wait 15] ∧
    newEvents (KeyboardInit World.start)
        (SingleKeypress [0x2F, 0x66, 0x6F, 0x6F] (KeyboardInit World.start)) =
      [Event.send [0, 0, 0, 0, 0, 0, 0, 0], Event.wait 15,
       Event.send [0, 0, 0, 0, 0, 0, 0, 0], Event.wait 15] ∧
    sends (newEvents (KeyboardInit World.start)
      (ModifiersAndKey 1 [0x2F, 0x66, 0x6F, 0x6F] (KeyboardInit World.start))) = 2 ∧
    sends (newEvents (KeyboardInit World.start)
      (SingleKeypress [0x2F, 0x66, 0x6F, 0x6F] (KeyboardInit World.start))) = 2 := by
  decide

/-- C15 (the code at a two-character literal key): in the Ready session right
after `KeyboardInit`, `SingleKeypress "ab"` transmits the press report
00 00 04 00 00 00 00 00, the key for the first character a, and a release
report: the key is cut to its first character, not rejected. -/
theorem SingleKeypress_literal_truncated :
    newEvents (KeyboardInit World.start)
        (SingleKeypress [0x61, 0x62] (KeyboardInit World.start)) =
      [Event.send [0, 0, 0x04, 0, 0, 0, 0, 0], Event.wait 15,
       Event.send [0, 0, 0, 0, 0, 0, 0, 0], Event.wait 15] ∧
    newEvents (KeyboardInit World.start)
        (SingleKeypress [0x61, 0x62] (KeyboardInit World.start)) =
      newEvents (KeyboardInit World.start)
        (SingleKeypress [0x61] (KeyboardInit World.start)) ∧
    ModifiersAndKey 0 [0x61, 0x62] (KeyboardInit World.start) = KeyboardInit World.start := by
  decide

/-! ## The buffer between calls -/

theorem KeyboardInit_start : KeyboardInit World.start = ⟨some zeroReport, 8, []⟩ := by
  decide

theorem PressKeys_log_front (r : keyboardReport) (size : Nat) (pre log : List Event) :
    PressKeys r size (pre ++ log) =
      ((PressKeys r size log).1, pre ++ (PressKeys r size log).2) := by
  simp [PressKeys, List.append_assoc]

theorem loop_log_front (str : List Nat) (r : keyboardReport) (size : Nat)
    (pre log : List Event) :
    TypeString.loop str r size (pre ++ log) =
      ((TypeString.loop str r size log).1, pre ++ (TypeString.loop str r size log).2) := by
  induction str generalizing r log with
  | nil => rfl
  | cons c rest ih =>
    by_cases hc : c = 0
    · simp [TypeString.loop, hc]
    · simp only [TypeString.loop, hc, if_false]
      rw [PressKeys_log_front, ih]

theorem run_log_front (op : Op) (rs : Option keyboardReport) (size : Nat)
    (pre log : List Event) :
    op.run ⟨rs, size, pre ++ log⟩ =
      ⟨(op.run ⟨rs, size, log⟩).report_struct, (op.run ⟨rs, size, log⟩).report_size,
        pre ++ (op.run ⟨rs, size, log⟩).log⟩ := by
  cases op with
  | init => rfl
  | deinit => cases rs <;> rfl
  | typeString str =>
    cases rs with
    | none => rfl
    | some r => simp [Op.run, TypeString, loop_log_front]
  | modifiersAndKey m key =>
    cases rs with
    | none =>
      simp only [Op.run, ModifiersAndKey]
      split <;> rfl
    | some r =>
      simp only [Op.run, ModifiersAndKey]
      split
      · rfl
      · simp [PressKeys_log_front]
  | singleKeypress key =>
    cases rs with
    | none => rfl
    | some r => simp [Op.run, SingleKeypress, PressKeys_log_front]

theorem run_from_clean (op : Op) (w : World) (hb : w.report_struct = some zeroReport)
    (h8 : w.report_size = 8) :
    (op.run w).log = w.log ++ (op.run (KeyboardInit World.start)).log := by
  obtain ⟨rs, size, log⟩ := w
  simp only at hb h8
  subst hb h8
  have h := run_log_front op (some zeroReport) 8 log []
  rw [List.append_nil] at h
  rw [h, KeyboardInit_start]

theorem loop_buffer_zero (str : List Nat) (log : List Event) :
    (TypeString.loop str zeroReport 8 log).1 = zeroReport := by
  induction str generalizing log with
  | nil => rfl
  | cons c rest ih =>
    by_cases hc : c = 0
    · simp [TypeString.loop, hc]
    · simp only [TypeString.loop, hc, if_false, PressKeys_eight]
      exact ih _

theorem Clean_step (op : Op) (w : World) (hw : Clean w) : Clean (op.run w) := by
  obtain ⟨rs, size, log⟩ := w
  rcases hw with hnone | ⟨hb, h8⟩
  · simp only at hnone
    subst hnone
    cases op with
    | init => exact Or.inr ⟨by simp [Op.run, KeyboardInit, sizeofKeyboardReport, memsetZero_eight], rfl⟩
    | deinit => exact Or.inl rfl
    | typeString str => exact Or.inl rfl
    | modifiersAndKey m key =>
      have h : ModifiersAndKey m key ⟨none, size, log⟩ = ⟨none, size, log⟩ :=
        (uninitialized_calls ⟨none, size, log⟩ (Eq.refl none) [] m key).2.1
      simp only [Op.run, h]
      exact Or.inl rfl
    | singleKeypress key => exact Or.inl rfl
  · simp only at hb h8
    subst hb h8
    cases op with
    | init => exact Or.inr ⟨by simp [Op.run, KeyboardInit, sizeofKeyboardReport, memsetZero_eight], rfl⟩
    | deinit => exact Or.inl rfl
    | typeString str =>
      exact Or.inr ⟨by simp [Op.run, TypeString, memsetZero_eight, loop_buffer_zero], rfl⟩
    | modifiersAndKey m key =>
      simp only [Op.run, ModifiersAndKey]
      split
      · exact Or.inr ⟨rfl, rfl⟩
      · exact Or.inr ⟨by simp [PressKeys_eight], rfl⟩
    | singleKeypress key =>
      exact Or.inr ⟨by simp [Op.run, SingleKeypress, PressKeys_eight], rfl⟩

theorem Clean_runOps (ops : List Op) (w : World) (hw : Clean w) : Clean (runOps ops w) := by
  induction ops generalizing w with
  | nil => exact hw
  | cons op rest ih => exact ih _ (Clean_step op w hw)

theorem Clean_reachable (ops : List Op) : Clean (runOps ops World.start) :=
  Clean_runOps ops World.start (Or.inl rfl)

theorem reachable_ready_buffer (ops : List Op) (hw : Ready (runOps ops World.start)) :
    (runOps ops World.start).report_struct = some zeroReport ∧
    (runOps ops World.start).report_size = 8 := by
  rcases Clean_reachable ops with hnone | h
  · have := hw.1
    rw [hnone] at this
    simp at this
  · exact h

/-! ## Shape of the transmitted reports -/

theorem reportsOk_append (a b : List Event) :
    reportsOk (a ++ b) = (reportsOk a && reportsOk b) := by
  simp [reportsOk, List.all_append]

theorem IsPress_zeroReport : IsPress zeroReport :=
  ⟨rfl, rfl, rfl, rfl, rfl, rfl⟩

theorem IsPress_KeyMap (s : Nat) (r : keyboardReport) (h : IsPress r) :
    IsPress (KeyMap s r) := by
  obtain ⟨h1, h2, h3, h4, h5, h6⟩ := KeyMap_other_fields s r
  obtain ⟨g1, g2, g3, g4, g5, g6⟩ := h
  exact ⟨h1.trans g1, h2.trans g2, h3.trans g3, h4.trans g4, h5.trans g5, h6.trans g6⟩

theorem reportOk_press (r : keyboardReport) (h : IsPress r) :
    reportOk (Event.send r.bytes) = true := by
  obtain ⟨g1, g2, g3, g4, g5, g6⟩ := h
  simp [keyboardReport.bytes, reportOk, g1, g2, g3, g4, g5, g6]

theorem PressKeys_reportsOk (r : keyboardReport) (h : IsPress r) (log : List Event)
    (hlog : reportsOk log = true) : reportsOk (PressKeys r 8 log).2 = true := by
  have h1 := reportOk_press r h
  rw [PressKeys_eight, reportsOk_append, hlog]
  simp only [reportsOk, List.all_cons, List.all_nil, h1]
  rfl

theorem loop_reportsOk (str : List Nat) (log : List Event) (hlog : reportsOk log = true) :
    reportsOk (TypeString.loop str zeroReport 8 log).2 = true := by
  induction str generalizing log with
  | nil => exact hlog
  | cons c rest ih =>
    by_cases hc : c = 0
    · simpa [TypeString.loop, hc] using hlog
    · simp only [TypeString.loop, hc, if_false]
      have h := PressKeys_reportsOk (KeyMap c zeroReport)
        (IsPress_KeyMap c zeroReport IsPress_zeroReport) log hlog
      rw [PressKeys_eight] at h ⊢
      exact ih _ h

theorem run_fresh_reportsOk (op : Op) :
    reportsOk (op.run (KeyboardInit World.start)).log = true := by
  rw [KeyboardInit_start]
  cases op with
  | init => rfl
  | deinit => rfl
  | typeString str =>
    simp only [Op.run, TypeString, memsetZero_eight]
    exact loop_reportsOk str [] rfl
  | modifiersAndKey m key =>
    simp only [Op.run, ModifiersAndKey, memsetZero_eight]
    split
    · rfl
    · apply PressKeys_reportsOk _ _ [] rfl
      split_ifs <;> first | exact IsPress_KeyMap _ _ IsPress_zeroReport | exact IsPress_zeroReport
  | singleKeypress key =>
    simp only [Op.run, SingleKeypress]
    apply PressKeys_reportsOk _ _ [] rfl
    split_ifs <;> first | exact IsPress_KeyMap _ _ IsPress_zeroReport | exact IsPress_zeroReport

theorem run_none_log (op : Op) (size : Nat) (log : List Event) :
    (op.run ⟨none, size, log⟩).log = log := by
  cases op with
  | init => rfl
  | deinit => rfl
  | typeString str => rfl
  | modifiersAndKey m key =>
    have h : ModifiersAndKey m key ⟨none, size, log⟩ = ⟨none, size, log⟩ :=
      (uninitialized_calls ⟨none, size, log⟩ (Eq.refl none) [] m key).2.1
    simp only [Op.run, h]
  | singleKeypress key => rfl

theorem reportsOk_step (op : Op) (w : World) (hc : Clean w)
    (hlog : reportsOk w.log = true) : reportsOk (op.run w).log = true := by
  rcases hc with hnone | ⟨hb, h8⟩
  · obtain ⟨rs, size, log⟩ := w
    simp only at hnone
    subst hnone
    rw [run_none_log]
    exact hlog
  · rw [run_from_clean op w hb h8, reportsOk_append, hlog, run_fresh_reportsOk]
    rfl

theorem reportsOk_runOps (ops : List Op) (w : World) (hc : Clean w)
    (hlog : reportsOk w.log = true) : reportsOk (runOps ops w).log = true := by
  induction ops generalizing w with
  | nil => exact hlog
  | cons op rest ih => exact ih _ (Clean_step op w hc) (reportsOk_step op w hc hlog)

/-- C16: every report transmitted by any sequence of public operations from
program start, so in particular by any sequence that begins with
`KeyboardInit`, has eight bytes with reserved = 0 and keycode2..keycode6 = 0:
only the modifier byte and keycode1 can be non-zero. -/
theorem reports_only_modifier_and_keycode1 (ops : List Op) :
    reportsOk (runOps ops World.start).log = true ∧
    reportsOk (runOps (Op.init :: ops) World.start).log = true :=
  ⟨reportsOk_runOps ops World.start (Or.inl rfl) rfl,
    reportsOk_runOps (Op.init :: ops) World.start (Or.inl rfl) rfl⟩

/-! ## Calls in a reachable Ready session -/

theorem run_newEvents (op : Op) (ops : List Op) (hw : Ready (runOps ops World.start)) :
    newEvents (runOps ops World.start) (op.run (runOps ops World.start)) =
      (op.run (KeyboardInit World.start)).log := by
  obtain ⟨hb, h8⟩ := reachable_ready_buffer ops hw
  exact newEvents_append _ _ _ (run_from_clean op _ hb h8)

theorem run_buffer_zero (op : Op) (hop : op ≠ Op.deinit) (w : World)
    (hb : w.report_struct = some zeroReport) (h8 : w.report_size = 8) :
    (op.run w).report_struct = some zeroReport := by
  obtain ⟨rs, size, log⟩ := w
  simp only at hb h8
  subst hb h8
  cases op with
  | init => simp [Op.run, KeyboardInit, sizeofKeyboardReport, memsetZero_eight]
  | deinit => exact absurd rfl hop
  | typeString str => simp [Op.run, TypeString, memsetZero_eight, loop_buffer_zero]
  | modifiersAndKey m key =>
    simp only [Op.run, ModifiersAndKey]
    split
    · rfl
    · simp [PressKeys_eight]
  | singleKeypress key => simp [Op.run, SingleKeypress, PressKeys_eight]

/-- C14: in every Ready state reached from program start through the public
operations, `SingleKeypress` with key "/enter", "/space", "/esc", "/del" or
"/tab" appends exactly one press/release cycle, so two transmissions: the
press report with modifier 0 and keycode1 0x28, 0x2C, 0x29, 0x2A, 0x2B
respectively and all other bytes 0, then the all-zero release report. -/
theorem SingleKeypress_operation_keys (ops : List Op)
    (hw : Ready (runOps ops World.start)) :
    newEvents (runOps ops World.start) (SingleKeypress lit_enter (runOps ops World.start)) =
      [Event.send [0, 0, 0x28, 0, 0, 0, 0, 0], Event.wait 15,
       Event.send [0, 0, 0, 0, 0, 0, 0, 0], Event.wait 15] ∧
    newEvents (runOps ops World.start) (SingleKeypress lit_space (runOps ops World.start)) =
      [Event.send [0, 0, 0x2C, 0, 0, 0, 0, 0], Event.wait 15,
       Event.send [0, 0, 0, 0, 0, 0, 0, 0], Event.wait 15] ∧
    newEvents (runOps ops World.start) (SingleKeypress lit_esc (runOps ops World.start)) =
      [Event.send [0, 0, 0x29, 0, 0, 0, 0, 0], Event.wait 15,
       Event.send [0, 0, 0, 0, 0, 0, 0, 0], Event.wait 15] ∧
    newEvents (runOps ops World.start) (SingleKeypress lit_del (runOps ops World.start)) =
      [Event.send [0, 0, 0x2A, 0, 0, 0, 0, 0], Event.wait 15,
       Event.send [0, 0, 0, 0, 0, 0, 0, 0], Event.wait 15] ∧
    newEvents (runOps ops World.start) (SingleKeypress lit_tab (runOps ops World.start)) =
      [Event.send [0, 0, 0x2B, 0, 0, 0, 0, 0], Event.wait 15,
       Event.send [0, 0, 0, 0, 0, 0, 0, 0], Event.wait 15] := by
  have h := fun key => run_newEvents (Op.singleKeypress key) ops hw
  simp only [Op.run] at h
  rw [h lit_enter, h lit_space, h lit_esc, h lit_del, h lit_tab]
  decide

theorem SingleKeypress_operation_keys_witness :
    Ready (runOps [Op.init, Op.typeString [0x41]] World.start) ∧
    newEvents (runOps [Op.init, Op.typeString [0x41]] World.start)
        (SingleKeypress lit_enter (runOps [Op.init, Op.typeString [0x41]] World.start)) =
      [Event.send [0, 0, 0x28, 0, 0, 0, 0, 0], Event.wait 15,
       Event.send [0, 0, 0, 0, 0, 0, 0, 0], Event.wait 15] :=
  ⟨by decide,
    (SingleKeypress_operation_keys [Op.init, Op.typeString [0x41]] (by decide)).1⟩

/-- C17: in every Ready state reached from program start through the public
operations the report buffer is all-zero; it is all-zero after `KeyboardInit`
and after each `TypeString`, `ModifiersAndKey` or `SingleKeypress` call made
there, whatever the arguments (rejected keys and the empty text included);
and the events each of these calls appends are those the same call appends
right after `KeyboardInit`, so they depend on its arguments only. -/
theorem buffer_zero_between_calls (ops : List Op) (hw : Ready (runOps ops World.start))
    (str : List Nat) (m : Nat) (key : List Nat) (w0 : World) :
    (runOps ops World.start).report_struct = some zeroReport ∧
    (KeyboardInit w0).report_struct = some zeroReport ∧
    (TypeString str (runOps ops World.start)).report_struct = some zeroReport ∧
    (ModifiersAndKey m key (runOps ops World.start)).report_struct = some zeroReport ∧
    (SingleKeypress key (runOps ops World.start)).report_struct = some zeroReport ∧
    newEvents (runOps ops World.start) (TypeString str (runOps ops World.start)) =
      (TypeString str (KeyboardInit World.start)).log ∧
    newEvents (runOps ops World.start) (ModifiersAndKey m key (runOps ops World.start)) =
      (ModifiersAndKey m key (KeyboardInit World.start)).log ∧
    newEvents (runOps ops World.start) (SingleKeypress key (runOps ops World.start)) =
      (SingleKeypress key (KeyboardInit World.start)).log := by
  obtain ⟨hb, h8⟩ := reachable_ready_buffer ops hw
  refine ⟨hb, ?_, ?_, ?_, ?_, ?_, ?_, ?_⟩
  · simp [KeyboardInit, sizeofKeyboardReport, memsetZero_eight]
  · exact run_buffer_zero (Op.typeString str) (by simp) _ hb h8
  · exact run_buffer_zero (Op.modifiersAndKey m key) (by simp) _ hb h8
  · exact run_buffer_zero (Op.singleKeypress key) (by simp) _ hb h8
  · exact run_newEvents (Op.typeString str) ops hw
  · exact run_newEvents (Op.modifiersAndKey m key) ops hw
  · exact run_newEvents (Op.singleKeypress key) ops hw

theorem buffer_zero_between_calls_witness :
    Ready (runOps [Op.init, Op.modifiersAndKey 0x01 [0x41]] World.start) ∧
    (SingleKeypress [0x62]
        (runOps [Op.init, Op.modifiersAndKey 0x01 [0x41]] World.start)).report_struct =
      some zeroReport ∧
    newEvents (runOps [Op.init, Op.modifiersAndKey 0x01 [0x41]] World.start)
        (SingleKeypress [0x62]
          (runOps [Op.init, Op.modifiersAndKey 0x01 [0x41]] World.start)) =
      (SingleKeypress [0x62] (KeyboardInit World.start)).log :=
  ⟨by decide,
    (buffer_zero_between_calls [Op.init, Op.modifiersAndKey 0x01 [0x41]] (by decide)
      [] 0 [0x62] World.start).2.2.2.2.1,
    (buffer_zero_between_calls [Op.init, Op.modifiersAndKey 0x01 [0x41]] (by decide)
      [] 0 [0x62] World.start).2.2.2.2.2.2.2⟩

theorem ModifiersAndKey_slash_fresh (m : Nat) (hm : m < 256) :
    (ModifiersAndKey m [0x2F] (KeyboardInit World.start)).log =
      [Event.send [m, 0, 0x38, 0, 0, 0, 0, 0], Event.wait 15,
       Event.send [0, 0, 0, 0, 0, 0, 0, 0], Event.wait 15] := by
  rw [KeyboardInit_start]
  simp [ModifiersAndKey, charAt, KeyMap, memsetZero_eight, PressKeys_eight,
    keyboardReport.bytes, zeroReport, zeroBytes, Nat.mod_eq_of_lt hm]

/-- C18: a key that is the single character slash is the literal slash key,
not an escape: in a Ready state reached from program start through the public
operations, `ModifiersAndKey m "/"` transmits the press report with modifier
`m` and keycode1 0x38, and `SingleKeypress "/"` the press report with modifier
0 and keycode1 0x38, each followed by one all-zero release report. -/
theorem single_slash_is_literal (m : Nat) (hm : m < 256) (ops : List Op)
    (hw : Ready (runOps ops World.start)) :
    newEvents (runOps ops World.start) (ModifiersAndKey m [0x2F] (runOps ops World.start)) =
      [Event.send [m, 0, 0x38, 0, 0, 0, 0, 0], Event.wait 15,
       Event.send [0, 0, 0, 0, 0, 0, 0, 0], Event.wait 15] ∧
    newEvents (runOps ops World.start) (SingleKeypress [0x2F] (runOps ops World.start)) =
      [Event.send [0, 0, 0x38, 0, 0, 0, 0, 0], Event.wait 15,
       Event.send [0, 0, 0, 0, 0, 0, 0, 0], Event.wait 15] := by
  have h1 := run_newEvents (Op.modifiersAndKey m [0x2F]) ops hw
  have h2 := run_newEvents (Op.singleKeypress [0x2F]) ops hw
  simp only [Op.run] at h1 h2
  rw [h1, h2, ModifiersAndKey_slash_fresh m hm]
  exact ⟨rfl, by decide⟩

theorem single_slash_is_literal_witness :
    (0x05 < 256 ∧ Ready (runOps [Op.init, Op.singleKeypress [0x41]] World.start)) ∧
    newEvents (runOps [Op.init, Op.singleKeypress [0x41]] World.start)
        (ModifiersAndKey 0x05 [0x2F]
          (runOps [Op.init, Op.singleKeypress [0x41]] World.start)) =
      [Event.send [0x05, 0, 0x38, 0, 0, 0, 0, 0], Event.wait 15,
       Event.send [0, 0, 0, 0, 0, 0, 0, 0], Event.wait 15] :=
  ⟨by decide,
    (single_slash_is_literal 0x05 (by decide) [Op.init, Op.singleKeypress [0x41]]
      (by decide)).1⟩

end HIDKeyboard
